import Mathlib

/-!
Shallow embedding of the autocomplete widget (`App.tsx`, richer variant with
`lastAppliedValueRef` and a separate `isDropdownOpen` flag).  Pure derived
values become Lean functions; the React `useState` fields become a record
`AppState`; each event handler becomes a function `AppState → AppState`
together with the list of `setAppliedQuery` writes ("commits") it performs
and, for selection, the list of `onSelected` invocations.  The lodash
debounce timer is modelled by a `pending : Option String` field armed by
`debouncedApply(value)` and discharged by an explicit `fire` event (the
trailing edge of the quiet period).
-/

namespace Autocomplete

/-- A candidate record from `peopleFromServer` (`Person` type):
`{ id_or_slug, name, born, died }`. Only `name` matters for filtering. -/
structure Person where
  id : Nat
  name : String
  born : Int
  died : Int
deriving DecidableEq

/-- Whether `pat` occurs as a contiguous run inside `l`: try it as a prefix
at every suffix of `l`. -/
def hasSubstrAux (pat : List Char) : List Char → Bool
  | [] => pat.isEmpty
  | c :: rest => pat.isPrefixOf (c :: rest) || hasSubstrAux pat rest

/-- JavaScript `String.prototype.includes`: substring containment on the
underlying character lists. -/
def jsIncludes (s pat : String) : Bool :=
  hasSubstrAux pat.data s.data

/-- JavaScript `String.prototype.trim`: drop whitespace from both ends. -/
def jsTrim (s : String) : String :=
  ⟨((s.data.dropWhile Char.isWhitespace).reverse.dropWhile
      Char.isWhitespace).reverse⟩

/-- JavaScript `String.prototype.toLowerCase`, restricted to the ASCII case
mapping. -/
def jsToLower (s : String) : String :=
  ⟨s.data.map Char.toLower⟩

/-- `filteredPeople` from the source:
if `isInputFocused && appliedQuery.trim() === ''` return the whole list,
else keep people whose lower-cased name includes the lower-cased trimmed
query. -/
def filteredPeople (people : List Person) (appliedQuery : String)
    (isInputFocused : Bool) : List Person :=
  let trimmed := jsTrim appliedQuery
  if isInputFocused = true ∧ trimmed = "" then
    people
  else
    people.filter fun person =>
      jsIncludes (jsToLower person.name) (jsToLower trimmed)

/-- The component state: the five `useState` fields plus
`lastAppliedValueRef.current` and the armed debounce timer's value. -/
structure AppState where
  selectedItem : Option Person
  isInputFocused : Bool
  query : String
  appliedQuery : String
  isDropdownOpen : Bool
  lastAppliedValue : String
  pending : Option String
deriving DecidableEq

/-- Initial state of the component: all flags false, all strings empty,
no selection, no timer armed. -/
def initState : AppState :=
  { selectedItem := none
    isInputFocused := false
    query := ""
    appliedQuery := ""
    isDropdownOpen := false
    lastAppliedValue := ""
    pending := none }

/-- The guarded `setSelectedItem(null)` in `handleQueryChange`:
`if (selectedItem && selectedItem.name.trim() !== trimmed) setSelectedItem(null)`. -/
def clearStaleSelection (s : AppState) (trimmed : String) : AppState :=
  match s.selectedItem with
  | some p => if jsTrim p.name = trimmed then s else { s with selectedItem := none }
  | none => s

/-- `handleQueryChange`: set `query`; clear a stale selection; if the trimmed
text is empty write `appliedQuery := ""` directly (a commit, recorded in the
returned list) and set `isDropdownOpen := isInputFocused`; otherwise arm the
debounce with the new value and open the dropdown.  Returns the new state and
the `setAppliedQuery` writes performed during the event. -/
def handleQueryChange (s : AppState) (next : String) : AppState × List String :=
  let s1 := clearStaleSelection { s with query := next } (jsTrim next)
  if jsTrim next = "" then
    ({ s1 with appliedQuery := "", isDropdownOpen := s1.isInputFocused }, [""])
  else
    ({ s1 with pending := some next, isDropdownOpen := true }, [])

/-- `handleFocus`: focus the input, open the dropdown, and if the raw query
trims to empty write `appliedQuery := ""` (a commit). -/
def handleFocus (s : AppState) : AppState × List String :=
  let s1 := { s with isInputFocused := true, isDropdownOpen := true }
  if jsTrim s.query = "" then ({ s1 with appliedQuery := "" }, [""]) else (s1, [])

/-- `handleBlur`: unfocus and close the dropdown. -/
def handleBlur (s : AppState) : AppState :=
  { s with isInputFocused := false, isDropdownOpen := false }

/-- `handlePersonSelected`: select the person, copy its name into both
queries, unfocus, close the dropdown, and call `onSelected(person)` exactly
when the optional callback was supplied.  Returns the new state, the
`setAppliedQuery` writes, and the list of `onSelected` invocations. -/
def handlePersonSelected (onSelectedSupplied : Bool) (s : AppState)
    (p : Person) : AppState × List String × List Person :=
  ({ s with
      selectedItem := some p
      query := p.name
      appliedQuery := p.name
      isInputFocused := false
      isDropdownOpen := false },
   [p.name],
   if onSelectedSupplied then [p] else [])

/-- The trailing edge of the lodash debounce: if a value is pending, run the
debounced body `if (lastAppliedValueRef.current !== value) { setAppliedQuery(value);
lastAppliedValueRef.current = value; }` and disarm the timer. -/
def debounceFire (s : AppState) : AppState × List String :=
  match s.pending with
  | none => (s, [])
  | some v =>
    if s.lastAppliedValue = v then
      ({ s with pending := none }, [])
    else
      ({ s with appliedQuery := v, lastAppliedValue := v, pending := none }, [v])

/-- The discrete events the component reacts to.  `fire` is the debounce
timer elapsing after a quiet period of `debounceDelay`. -/
inductive Event where
  | textChange (next : String)
  | focus
  | blur
  | select (p : Person)
  | fire
deriving DecidableEq

/-- One event step: the state part of each handler (`onSelected` presence
does not affect the state, so `select` uses the supplied-callback handler). -/
def stepLog (e : Event) (s : AppState) : AppState × List String :=
  match e with
  | .textChange v => handleQueryChange s v
  | .focus => handleFocus s
  | .blur => (handleBlur s, [])
  | .select p => ((handlePersonSelected true s p).1, (handlePersonSelected true s p).2.1)
  | .fire => debounceFire s

/-- The state reached after one event. -/
def step (e : Event) (s : AppState) : AppState :=
  (stepLog e s).1

/-- Run a list of events, accumulating the `setAppliedQuery` commit log. -/
def runLog (s : AppState) : List Event → AppState × List String
  | [] => (s, [])
  | e :: es =>
    let r := stepLog e s
    let r2 := runLog r.1 es
    (r2.1, r.2 ++ r2.2)

/-- `isOpen` from the source: `isInputFocused && isDropdownOpen`; the
rendered dropdown visibility. -/
def isOpen (s : AppState) : Bool :=
  s.isInputFocused && s.isDropdownOpen

/-- The suggestion rows actually rendered:
`filteredPeople.length > 0 && isOpen && filteredPeople.map(...)`. -/
def suggestionRows (people : List Person) (s : AppState) : List Person :=
  if 0 < (filteredPeople people s.appliedQuery s.isInputFocused).length ∧ isOpen s = true then
    filteredPeople people s.appliedQuery s.isInputFocused
  else
    []

/-- Whether the "No matching suggestions" notice is rendered:
`isOpen && filteredPeople.length === 0`. -/
def noMatchNotice (people : List Person) (s : AppState) : Bool :=
  isOpen s && (filteredPeople people s.appliedQuery s.isInputFocused).length == 0

/-- Reachability invariant: whenever the input is focused the
`isDropdownOpen` flag is set (focus, typing and clearing all keep it set
while focused; blur and selection unfocus). -/
def focusOpenInv (s : AppState) : Bool :=
  !s.isInputFocused || s.isDropdownOpen

/-- Concrete candidate used in witnesses (spec §8 scenario roster). -/
def alice : Person := ⟨1, "Alice", 1, 2⟩

/-- Concrete candidate used in witnesses (spec §8 scenario roster). -/
def bob : Person := ⟨2, "Bob", 3, 4⟩

/-- A focused state with the dropdown open: the state reached from
`initState` by a `focus` event. -/
def s0 : AppState :=
  { initState with isInputFocused := true, isDropdownOpen := true }

/-! ### Helper lemmas -/

/-- The substring check is the mathematical infix relation on the
character lists. -/
theorem hasSubstrAux_correct (pat l : List Char) :
    hasSubstrAux pat l = true ↔ pat <:+: l := by
  induction l with
  | nil =>
    simp only [hasSubstrAux, List.isEmpty_iff, List.infix_nil]
  | cons c rest ih =>
    simp only [hasSubstrAux, Bool.or_eq_true, List.isPrefixOf_iff_prefix, ih,
      List.infix_cons_iff]

/-- JS `includes` agrees with the infix relation. -/
theorem jsIncludes_correct (s pat : String) :
    jsIncludes s pat = true ↔ pat.data <:+: s.data :=
  hasSubstrAux_correct pat.data s.data

theorem jsIncludes_empty (s : String) : jsIncludes s "" = true :=
  (jsIncludes_correct s "").mpr List.nil_infix

theorem jsToLower_empty : jsToLower "" = "" := rfl

theorem jsTrim_empty : jsTrim "" = "" := rfl

/-- The filter engine always equals a plain stable filter by the
case-folded-containment predicate (the focused-empty branch coincides with
it because the empty string is contained in every name). -/
theorem filteredPeople_eq_filter (people : List Person) (q : String)
    (focus : Bool) :
    filteredPeople people q focus =
      people.filter fun p =>
        jsIncludes (jsToLower p.name) (jsToLower (jsTrim q)) := by
  simp only [filteredPeople]
  split
  case isTrue h =>
    refine (List.filter_eq_self.mpr ?_).symm
    intro p _
    rw [h.2, jsToLower_empty]
    exact jsIncludes_empty _
  case isFalse h => rfl

/-- With an empty trimmed query the filter returns the whole list, whatever
the focus flag. -/
theorem filteredPeople_trim_empty (people : List Person) (q : String)
    (ht : jsTrim q = "") (focus : Bool) :
    filteredPeople people q focus = people := by
  rw [filteredPeople_eq_filter, ht, jsToLower_empty]
  refine List.filter_eq_self.mpr ?_
  intro p _
  exact jsIncludes_empty _

/-! ### Claims -/

/-- C1: For every query string q, the Filter Engine returns exactly the
candidates whose name, lower-cased, contains trim(q) lower-cased as a
substring, in the same relative order as the source list (a stable filter,
expressed as equality with `List.filter`); when FocusState is true and
trim(q) is empty it returns the full source list unchanged. -/
theorem filter_engine_exact (people : List Person) (q : String)
    (focus : Bool) :
    filteredPeople people q focus =
      (people.filter fun p =>
        jsIncludes (jsToLower p.name) (jsToLower (jsTrim q))) ∧
    (focus = true → jsTrim q = "" →
      filteredPeople people q focus = people) :=
  ⟨filteredPeople_eq_filter people q focus,
   fun _ ht => filteredPeople_trim_empty people q ht focus⟩

/-- Witness for C1 at the spec §8 roster with the empty query while
focused: the full roster comes back. -/
theorem filter_engine_exact_witness :
    filteredPeople [alice, bob] "" true = [alice, bob] :=
  (filter_engine_exact [alice, bob] "" true).2 rfl jsTrim_empty

/-- C10: Whenever trim(AppliedQuery) is empty the Filter Engine's output is
the full source list regardless of FocusState, and in general the filter
output is a function of AppliedQuery alone (the focus flag never changes
the result). -/
theorem filter_focus_irrelevant (people : List Person) (q : String) :
    (jsTrim q = "" → ∀ focus, filteredPeople people q focus = people) ∧
    (∀ f₁ f₂, filteredPeople people q f₁ = filteredPeople people q f₂) :=
  ⟨fun ht focus => filteredPeople_trim_empty people q ht focus,
   fun f₁ f₂ => by rw [filteredPeople_eq_filter, filteredPeople_eq_filter]⟩

/-- Witness for C10: empty query, unfocused — still the full roster. -/
theorem filter_focus_irrelevant_witness :
    filteredPeople [alice, bob] "  " false = [alice, bob] :=
  (filter_focus_irrelevant [alice, bob] "  ").1 (by decide) false

/-- `clearStaleSelection` touches no field except `selectedItem`. -/
theorem clearStaleSelection_fields (s : AppState) (t : String) :
    (clearStaleSelection s t).isInputFocused = s.isInputFocused ∧
    (clearStaleSelection s t).query = s.query ∧
    (clearStaleSelection s t).appliedQuery = s.appliedQuery ∧
    (clearStaleSelection s t).isDropdownOpen = s.isDropdownOpen ∧
    (clearStaleSelection s t).lastAppliedValue = s.lastAppliedValue ∧
    (clearStaleSelection s t).pending = s.pending := by
  unfold clearStaleSelection
  cases hs : s.selectedItem with
  | none => exact ⟨rfl, rfl, rfl, rfl, rfl, rfl⟩
  | some p => by_cases h : jsTrim p.name = t <;> simp [h]

/-- What `clearStaleSelection` does to the selection: keep it exactly when
the trimmed selected name equals the trimmed new text. -/
theorem clearStaleSelection_selectedItem (s : AppState) (t : String) :
    (clearStaleSelection s t).selectedItem =
      (s.selectedItem.bind fun p =>
        if jsTrim p.name = t then some p else none) := by
  unfold clearStaleSelection
  cases hs : s.selectedItem with
  | none => simp [hs]
  | some p => by_cases h : jsTrim p.name = t <;> simp [h, hs]

/-- Both branches of `handleQueryChange` leave `selectedItem` as
`clearStaleSelection` produced it. -/
theorem handleQueryChange_selectedItem (s : AppState) (next : String) :
    (handleQueryChange s next).1.selectedItem =
      (clearStaleSelection { s with query := next }
        (jsTrim next)).selectedItem := by
  simp only [handleQueryChange]
  split <;> rfl

/-- C3: A text change whose new text trims to empty sets AppliedQuery to ""
synchronously within the same event (that write is the event's one commit,
bypassing the debounce) and sets dropdown visibility to the current
FocusState. -/
theorem empty_input_bypasses_debounce (s : AppState) (next : String)
    (h : jsTrim next = "") :
    (handleQueryChange s next).1.appliedQuery = "" ∧
    (handleQueryChange s next).1.isDropdownOpen = s.isInputFocused ∧
    (handleQueryChange s next).2 = [""] := by
  have hf := (clearStaleSelection_fields { s with query := next }
    (jsTrim next)).1
  rw [h] at hf
  simp [handleQueryChange, h, hf]

/-- Witness for C3: typing two spaces from the focused initial state. -/
theorem empty_input_bypasses_debounce_witness :
    (handleQueryChange s0 "  ").1.appliedQuery = "" ∧
    (handleQueryChange s0 "  ").1.isDropdownOpen = s0.isInputFocused ∧
    (handleQueryChange s0 "  ").2 = [""] :=
  empty_input_bypasses_debounce s0 "  " (by decide)

/-- C2: Selecting a candidate sets RawQuery and AppliedQuery to its name,
records the selection, clears FocusState, closes the dropdown, and (with a
callback supplied) invokes `onSelected` exactly once with that candidate. -/
theorem select_candidate_updates (cb : Bool) (s : AppState) (p : Person)
    (h : cb = true) :
    (handlePersonSelected cb s p).1.selectedItem = some p ∧
    (handlePersonSelected cb s p).1.query = p.name ∧
    (handlePersonSelected cb s p).1.appliedQuery = p.name ∧
    (handlePersonSelected cb s p).1.isInputFocused = false ∧
    (handlePersonSelected cb s p).1.isDropdownOpen = false ∧
    (handlePersonSelected cb s p).2.2 = [p] := by
  subst h
  exact ⟨rfl, rfl, rfl, rfl, rfl, rfl⟩

/-- Witness for C2: selecting Alice from the focused state. -/
theorem select_candidate_updates_witness :
    (handlePersonSelected true s0 alice).1.query = "Alice" ∧
    (handlePersonSelected true s0 alice).2.2 = [alice] :=
  ⟨(select_candidate_updates true s0 alice rfl).2.1,
   (select_candidate_updates true s0 alice rfl).2.2.2.2.2⟩

/-- C5: On a text change, an existing selection is cleared exactly when the
trimmed new text differs from the trimmed selected name; with no selection,
none appears (typing never re-selects automatically). -/
theorem selection_clear_iff (s : AppState) (next : String) :
    (∀ p, s.selectedItem = some p →
      (handleQueryChange s next).1.selectedItem =
        if jsTrim p.name = jsTrim next then some p else none) ∧
    (s.selectedItem = none →
      (handleQueryChange s next).1.selectedItem = none) := by
  constructor
  · intro p hp
    rw [handleQueryChange_selectedItem, clearStaleSelection_selectedItem]
    simp [hp]
  · intro hn
    rw [handleQueryChange_selectedItem, clearStaleSelection_selectedItem]
    simp [hn]

/-- Witness for C5: with Alice selected, typing " Alice " keeps the
selection and typing "Ali" drops it. -/
theorem selection_clear_iff_witness :
    (handleQueryChange { s0 with selectedItem := some alice }
      " Alice ").1.selectedItem = some alice ∧
    (handleQueryChange { s0 with selectedItem := some alice }
      "Ali").1.selectedItem = none := by
  constructor
  · have h := (selection_clear_iff { s0 with selectedItem := some alice }
      " Alice ").1 alice rfl
    rw [h]
    decide
  · have h := (selection_clear_iff { s0 with selectedItem := some alice }
      "Ali").1 alice rfl
    rw [h]
    decide

/-- C8: The `onSelected` callback fires exactly when it was supplied; with
no callback, selection still performs every state update (a no-op on the
notification side, not an error). -/
theorem optional_callback_noop (s : AppState) (p : Person) :
    (handlePersonSelected true s p).2.2 = [p] ∧
    (handlePersonSelected false s p).2.2 = [] ∧
    (handlePersonSelected false s p).1 = (handlePersonSelected true s p).1 ∧
    (handlePersonSelected false s p).1.selectedItem = some p ∧
    (handlePersonSelected false s p).1.query = p.name ∧
    (handlePersonSelected false s p).1.appliedQuery = p.name ∧
    (handlePersonSelected false s p).1.isInputFocused = false ∧
    (handlePersonSelected false s p).1.isDropdownOpen = false :=
  ⟨rfl, rfl, rfl, rfl, rfl, rfl, rfl, rfl⟩

/-- `runLog` splits over concatenation of event lists. -/
theorem runLog_append (s : AppState) (es1 es2 : List Event) :
    runLog s (es1 ++ es2) =
      ((runLog (runLog s es1).1 es2).1,
       (runLog s es1).2 ++ (runLog (runLog s es1).1 es2).2) := by
  induction es1 generalizing s with
  | nil => simp [runLog]
  | cons e es ih => simp [runLog, ih]

/-- A text change with nonempty trimmed text commits nothing: it only arms
the debounce with the new value, leaving `appliedQuery` and the guard ref
untouched. -/
theorem handleQueryChange_nonempty (s : AppState) (v : String)
    (hv : jsTrim v ≠ "") :
    (handleQueryChange s v).2 = [] ∧
    (handleQueryChange s v).1.pending = some v ∧
    (handleQueryChange s v).1.appliedQuery = s.appliedQuery ∧
    (handleQueryChange s v).1.lastAppliedValue = s.lastAppliedValue := by
  have hc := clearStaleSelection_fields { s with query := v } (jsTrim v)
  simp [handleQueryChange, hv, hc.2.2.1, hc.2.2.2.2.1]

/-- A run of nonempty text changes performs no commit and leaves
`appliedQuery` and the guard ref unchanged. -/
theorem run_textChanges_invariants (vs : List String) (s : AppState)
    (hne : ∀ v ∈ vs, jsTrim v ≠ "") :
    (runLog s (vs.map Event.textChange)).2 = [] ∧
    (runLog s (vs.map Event.textChange)).1.appliedQuery = s.appliedQuery ∧
    (runLog s (vs.map Event.textChange)).1.lastAppliedValue
      = s.lastAppliedValue := by
  induction vs generalizing s with
  | nil => exact ⟨rfl, rfl, rfl⟩
  | cons v tail ih =>
    have hq := handleQueryChange_nonempty s v
      (hne v (List.mem_cons_self v tail))
    have hih := ih (handleQueryChange s v).1
      (fun u hu => hne u (List.mem_cons_of_mem v hu))
    refine ⟨?_, ?_, ?_⟩
    · simp [runLog, stepLog, hq.1, hih.1]
    · simp [runLog, stepLog, hih.2.1, hq.2.2.1]
    · simp [runLog, stepLog, hih.2.2, hq.2.2.2]

/-- C9: The suppression guard compares a pending value only against
`lastAppliedValueRef`, which the direct empty-input write does not update;
so after typing "q", letting it commit, clearing the field, retyping "q"
and waiting out the quiet period, the final debounced commit of "q" is
suppressed and AppliedQuery remains "" although the field shows "q". -/
theorem stale_guard_suppression :
    (∀ s next, jsTrim next = "" →
      (handleQueryChange s next).1.lastAppliedValue = s.lastAppliedValue) ∧
    (∀ cb s p, (handlePersonSelected cb s p).1.lastAppliedValue
      = s.lastAppliedValue) ∧
    (runLog s0 [Event.textChange "q", Event.fire, Event.textChange "",
      Event.textChange "q", Event.fire]).1.appliedQuery = "" ∧
    (runLog s0 [Event.textChange "q", Event.fire, Event.textChange "",
      Event.textChange "q", Event.fire]).1.query = "q" ∧
    (runLog s0 [Event.textChange "q", Event.fire, Event.textChange "",
      Event.textChange "q", Event.fire]).1.lastAppliedValue = "q" ∧
    (runLog s0 [Event.textChange "q", Event.fire, Event.textChange "",
      Event.textChange "q", Event.fire]).2 = ["q", ""] := by
  refine ⟨?_, fun cb s p => rfl, by decide⟩
  intro s next h
  have hc := (clearStaleSelection_fields { s with query := next }
    (jsTrim next)).2.2.2.2.1
  rw [h] at hc
  simp [handleQueryChange, h, hc]

/-- Witness for C9's general part: clearing the field leaves the guard ref
unchanged. -/
theorem stale_guard_suppression_witness :
    (handleQueryChange s0 " ").1.lastAppliedValue = s0.lastAppliedValue :=
  stale_guard_suppression.1 s0 " " (by decide)

/-- Counterexample to C4 as stated: the changes "a" then "" both arrive
within the delay, then the timer fires.  The empty change commits ""
immediately and the uncancelled debounce then commits "a": two commits, and
the final AppliedQuery is "a", not the last value typed. -/
theorem debounce_two_commits_counterexample :
    (runLog s0 [Event.textChange "a", Event.textChange "",
      Event.fire]).2 = ["", "a"] ∧
    (runLog s0 [Event.textChange "a", Event.textChange "",
      Event.fire]).2 ≠ [""] ∧
    (runLog s0 [Event.textChange "a", Event.textChange "",
      Event.fire]).1.appliedQuery = "a" := by
  decide

/-- C4 (amended): For a sequence of text changes with nonempty trimmed
text, each within `debounceDelay` of the previous, followed by a quiet
period, no commit happens during the sequence and the closing timer fire
commits exactly the last value typed — unless that value equals the last
value committed through the debounced path (`lastAppliedValueRef`), in
which case nothing is committed. -/
theorem debounce_coalescing (s : AppState) (vs : List String) (u : String)
    (hne : ∀ v ∈ vs, jsTrim v ≠ "") (hu : jsTrim u ≠ "") :
    (runLog s ((vs ++ [u]).map Event.textChange)).2 = [] ∧
    (runLog s ((vs ++ [u]).map Event.textChange ++ [Event.fire])).2 =
      (if s.lastAppliedValue = u then [] else [u]) ∧
    (runLog s
        ((vs ++ [u]).map Event.textChange ++ [Event.fire])).1.appliedQuery =
      (if s.lastAppliedValue = u then s.appliedQuery else u) := by
  have hmap : (vs ++ [u]).map Event.textChange
      = vs.map Event.textChange ++ [Event.textChange u] := by simp
  have hpre := run_textChanges_invariants vs s hne
  have hstep :=
    handleQueryChange_nonempty (runLog s (vs.map Event.textChange)).1 u hu
  have hA : runLog s ((vs ++ [u]).map Event.textChange)
      = ((handleQueryChange (runLog s (vs.map Event.textChange)).1 u).1,
         []) := by
    rw [hmap, runLog_append]
    simp [runLog, stepLog, hpre.1, hstep.1]
  have hB : runLog s ((vs ++ [u]).map Event.textChange ++ [Event.fire])
      = ((debounceFire
            (handleQueryChange (runLog s (vs.map Event.textChange)).1
              u).1).1,
         (debounceFire
            (handleQueryChange (runLog s (vs.map Event.textChange)).1
              u).1).2) := by
    rw [runLog_append, hA]
    simp [runLog, stepLog]
  refine ⟨by rw [hA], ?_, ?_⟩ <;> rw [hB]
  · by_cases hcase : s.lastAppliedValue = u <;>
      simp [debounceFire, hstep.2.1, hstep.2.2.2, hpre.2.2, hcase]
  · by_cases hcase : s.lastAppliedValue = u <;>
      simp [debounceFire, hstep.2.1, hstep.2.2.2, hstep.2.2.1,
        hpre.2.1, hpre.2.2, hcase]

/-- Witness for the amended C4: typing "a" then "ab" then waiting yields
the single commit "ab". -/
theorem debounce_coalescing_witness :
    (runLog s0 ((["a"] ++ ["ab"]).map Event.textChange
      ++ [Event.fire])).2 = ["ab"] ∧
    (runLog s0 ((["a"] ++ ["ab"]).map Event.textChange
      ++ [Event.fire])).1.appliedQuery = "ab" :=
  ⟨(debounce_coalescing s0 ["a"] "ab" (by decide) (by decide)).2.1,
   (debounce_coalescing s0 ["a"] "ab" (by decide) (by decide)).2.2⟩

/-- C6: While the dropdown is open, the suggestion rows render exactly the
filter's non-empty result and the notice is hidden; with an empty result
the single notice renders and no rows do; while closed, neither renders. -/
theorem dropdown_rendering (people : List Person) (s : AppState) :
    (isOpen s = true →
      (filteredPeople people s.appliedQuery s.isInputFocused ≠ [] →
        suggestionRows people s
          = filteredPeople people s.appliedQuery s.isInputFocused ∧
        noMatchNotice people s = false) ∧
      (filteredPeople people s.appliedQuery s.isInputFocused = [] →
        suggestionRows people s = [] ∧ noMatchNotice people s = true)) ∧
    (isOpen s = false →
      suggestionRows people s = [] ∧ noMatchNotice people s = false) := by
  refine ⟨fun ho => ⟨fun hne => ⟨?_, ?_⟩, fun he => ⟨?_, ?_⟩⟩,
    fun hc => ⟨?_, ?_⟩⟩
  · simp [suggestionRows, ho, List.length_pos.mpr hne]
  · simp [noMatchNotice, ho, hne]
  · simp [suggestionRows, he]
  · simp [noMatchNotice, ho, he]
  · simp [suggestionRows, hc]
  · simp [noMatchNotice, hc]

/-- Witness for C6: query "zzz" while open shows the notice and zero
suggestion rows. -/
theorem dropdown_rendering_witness :
    suggestionRows [alice, bob] { s0 with appliedQuery := "zzz" } = [] ∧
    noMatchNotice [alice, bob] { s0 with appliedQuery := "zzz" } = true :=
  ((dropdown_rendering [alice, bob]
      { s0 with appliedQuery := "zzz" }).1 (by decide)).2 (by decide)

/-- `handleFocus` always sets both the focus and the dropdown flag. -/
theorem handleFocus_flags (s : AppState) :
    (handleFocus s).1.isInputFocused = true ∧
    (handleFocus s).1.isDropdownOpen = true := by
  by_cases h : jsTrim s.query = "" <;> simp [handleFocus, h]

/-- `handleQueryChange` keeps the focus flag and sets the dropdown flag to
the focus flag on empty input, to true otherwise. -/
theorem handleQueryChange_flags (s : AppState) (v : String) :
    (handleQueryChange s v).1.isInputFocused = s.isInputFocused ∧
    (handleQueryChange s v).1.isDropdownOpen
      = (if jsTrim v = "" then s.isInputFocused else true) := by
  have hf := (clearStaleSelection_fields { s with query := v } (jsTrim v)).1
  by_cases hv : jsTrim v = ""
  · rw [hv] at hf
    simp [handleQueryChange, hv, hf]
  · simp [handleQueryChange, hv, hf]

/-- The debounce body touches neither the focus nor the dropdown flag. -/
theorem debounceFire_flags (s : AppState) :
    (debounceFire s).1.isInputFocused = s.isInputFocused ∧
    (debounceFire s).1.isDropdownOpen = s.isDropdownOpen := by
  cases hp : s.pending with
  | none => simp [debounceFire, hp]
  | some v =>
    by_cases h : s.lastAppliedValue = v <;> simp [debounceFire, hp, h]

/-- After any text change the rendered visibility equals the focus flag. -/
theorem isOpen_step_textChange (s : AppState) (v : String) :
    isOpen (step (Event.textChange v) s) = s.isInputFocused := by
  have h1 := (handleQueryChange_flags s v).1
  have h2 := (handleQueryChange_flags s v).2
  simp only [isOpen, step, stepLog]
  rw [h1, h2]
  by_cases hv : jsTrim v = "" <;> simp [hv]

/-- Focus always opens the dropdown. -/
theorem isOpen_step_focus (s : AppState) :
    isOpen (step Event.focus s) = true := by
  have h := handleFocus_flags s
  simp [isOpen, step, stepLog, h.1, h.2]

/-- The timer firing never changes the rendered visibility. -/
theorem isOpen_step_fire (s : AppState) :
    isOpen (step Event.fire s) = isOpen s := by
  have h := debounceFire_flags s
  simp [isOpen, step, stepLog, h.1, h.2]

/-- C7: Over states satisfying the reachability invariant (dropdown flag
set whenever focused — true initially and preserved by every event), the
rendered visibility goes Closed to Open exactly on focus gained or on a
non-empty text change while focused, and Open to Closed exactly on blur or
on explicit selection; no other event changes it. -/
theorem dropdown_visibility_machine :
    focusOpenInv initState = true ∧
    (∀ e s, focusOpenInv s = true → focusOpenInv (step e s) = true) ∧
    (∀ e s, focusOpenInv s = true →
      (isOpen s = false →
        (isOpen (step e s) = true ↔
          e = Event.focus ∨ ∃ v, e = Event.textChange v ∧ jsTrim v ≠ ""
            ∧ s.isInputFocused = true)) ∧
      (isOpen s = true →
        (isOpen (step e s) = false ↔
          e = Event.blur ∨ ∃ p, e = Event.select p))) := by
  refine ⟨rfl, ?_, ?_⟩
  · intro e s hinv
    cases e with
    | textChange v =>
      have h1 := (handleQueryChange_flags s v).1
      have h2 := (handleQueryChange_flags s v).2
      simp only [step, stepLog, focusOpenInv] at *
      rw [h1, h2]
      by_cases hv : jsTrim v = ""
      · simp [hv]
      · simp [hv]
    | focus =>
      have h := handleFocus_flags s
      simp [focusOpenInv, step, stepLog, h.1, h.2]
    | blur => simp [focusOpenInv, step, stepLog, handleBlur]
    | select p => simp [focusOpenInv, step, stepLog, handlePersonSelected]
    | fire =>
      have h := debounceFire_flags s
      simp only [step, stepLog, focusOpenInv] at *
      rw [h.1, h.2]
      exact hinv
  · intro e s hinv
    constructor
    · intro hclosed
      have hfocus : s.isInputFocused = false := by
        cases hf : s.isInputFocused
        · rfl
        · have hd : s.isDropdownOpen = true := by
            simpa [focusOpenInv, hf] using hinv
          simp [isOpen, hf, hd] at hclosed
      cases e with
      | textChange v => simp [isOpen_step_textChange, hfocus]
      | focus => simp [isOpen_step_focus]
      | blur => simp [step, stepLog, isOpen, handleBlur]
      | select p => simp [step, stepLog, isOpen, handlePersonSelected]
      | fire => simp [isOpen_step_fire, hclosed]
    · intro hopen
      cases e with
      | textChange v =>
        have hf : s.isInputFocused = true := by
          simpa [isOpen, Bool.and_eq_true] using And.left
            (by simpa [isOpen, Bool.and_eq_true] using hopen)
        simp [isOpen_step_textChange, hf]
      | focus => simp [isOpen_step_focus]
      | blur => simp [step, stepLog, isOpen, handleBlur]
      | select p => simp [step, stepLog, isOpen, handlePersonSelected]
      | fire => simp [isOpen_step_fire, hopen]

/-- Witness for C7: from the focused-open state, blur closes the
dropdown. -/
theorem dropdown_visibility_machine_witness :
    isOpen (step Event.blur s0) = false :=
  ((dropdown_visibility_machine.2.2 Event.blur s0 (by decide)).2
    (by decide)).mpr (Or.inl rfl)

end Autocomplete
